import Mathlib

/-!
# Kerberos.cpp: flush policy, flush pass, configuration pipeline, metadata

A shallow embedding of `src/kerberos/Kerberos.cpp` and the properties proved
about it. Definitions come first, theorems after them.

* `IOLoop`, `checkDetectionsContinuously`: the three locals of the IO thread
  and the flush decision taken at each poll (lines 372-430).
* `flushLoop`, `flushPass`: the `for` loop that saves and erases buffered
  detections (lines 401-418).
* `Kerberos`, `configure`, `configureCapture`, `configureCloud`: the
  configuration pipeline as a state transformer that logs every call it makes
  on a collaborator (lines 126-296, 342-365, 432-449).
* `toJSON`: the members added to the metadata document (lines 99-124).
-/

namespace kerberos

/-! ## Definitions: the IO thread's flush policy -/

/-- The cast `(int)` of a `size_t` on a 32-bit `int`, also made implicitly by
the assignment of line 385. -/
def toInt32 (n : Nat) : Int :=
  if n % 2 ^ 32 < 2 ^ 31 then (n % 2 ^ 32 : Nat) else ((n % 2 ^ 32 : Nat) : Int) - 2 ^ 32

/-- Result of arithmetic on a 32-bit `int`, wrapped in two's complement (signed
overflow is undefined in C++; wrapping is what the usual targets do). -/
def wrapInt32 (i : Int) : Int := (i + 2147483648) % 4294967296 - 2147483648

/-- Loop-carried locals of `checkDetectionsContinuously` (lines 376-378),
each a 32-bit `int`. -/
structure IOLoop where
  previousCount : Int
  currentCount : Int
  timesEqual : Int
deriving DecidableEq

/-- What one iteration of the loop meets: the value `m_detections.size()`
returns on line 385, and whether a `cv::Exception` is thrown inside the flush
pass when the pass runs at this iteration (it is caught on line 425). -/
structure Poll where
  size : Nat
  passThrows : Bool
deriving DecidableEq

namespace IOLoop

/-- Values of the three locals before the first iteration (lines 376-378). -/
def init : IOLoop := { previousCount := 0, currentCount := 0, timesEqual := 0 }

/-- Lines 384-394: shift the snapshot, narrow `m_detections.size()` to `int`,
update the counter. `timesEqual--` runs only on a positive counter and cannot
leave the range. -/
def observe (s : IOLoop) (size : Nat) : IOLoop :=
  let previousCount := s.currentCount
  let currentCount : Int := toInt32 size
  let timesEqual :=
    if previousCount = currentCount then wrapInt32 (s.timesEqual + 1)
    else if s.timesEqual > 0 then s.timesEqual - 1
    else s.timesEqual
  { previousCount := previousCount, currentCount := currentCount, timesEqual := timesEqual }

/-- Line 397: the condition guarding the flush pass. -/
def flushDue (s : IOLoop) : Bool :=
  (decide (s.currentCount > 0) && decide (s.timesEqual > 4)) || decide (s.currentCount ≥ 30)

/-- One iteration of the `while` loop (lines 382-428) as far as the three
locals go: the new locals and whether the flush pass ran. When the pass runs
to its end line 420 clears `timesEqual`; when a `cv::Exception` is thrown
inside the pass control goes to the handler of lines 425-428, which skips
line 420 and leaves the counter as it is. -/
def poll (s : IOLoop) (p : Poll) : IOLoop × Bool :=
  let s1 := s.observe p.size
  if s1.flushDue then
    (if p.passThrows then s1 else { s1 with timesEqual := 0 }, true)
  else (s1, false)

/-- Locals after the loop has gone through the given iterations, oldest first. -/
def after (s : IOLoop) (polls : List Poll) : IOLoop :=
  polls.foldl (fun st p => (st.poll p).1) s

end IOLoop

/-- The `while` loop of `checkDetectionsContinuously` (lines 380-429) run on a
sequence of iterations: for each of them, whether the flush pass ran. -/
def checkDetectionsContinuously : IOLoop → List Poll → List Bool
  | _, [] => []
  | s, p :: rest => (s.poll p).2 :: checkDetectionsContinuously (s.poll p).1 rest

/-- Iterations that observe the given buffer lengths and whose flush pass,
when it runs, runs to its end. -/
def quietPolls (sizes : List Nat) : List Poll :=
  sizes.map (fun size => { size := size, passThrows := false })

/-- Flush condition in the words of the hysteresis property: the length is
positive and the counter exceeds 4, or the length is at least 30. -/
def specTrigger (len counter : Nat) : Bool :=
  (decide (0 < len) && decide (4 < counter)) || decide (30 ≤ len)

/-- Counter in the words of the hysteresis property, for a history given newest
first: the value carried over from the earlier observation (0 at the start and
after a flush pass), plus one when the newest length equals the previous
observation, minus one when it differs and the counter is positive. -/
def specCounter : List Nat → Nat
  | [] => 0
  | len :: earlier =>
    let carried :=
      match earlier with
      | [] => 0
      | prev :: _ => if specTrigger prev (specCounter earlier) then 0 else specCounter earlier
    if len = earlier.headD 0 then carried + 1
    else if 0 < carried then carried - 1
    else carried

/-- Counter value carried into the next observation, for a history given
newest first: 0 after a flush pass, the counter otherwise. -/
def specCarried : List Nat → Nat
  | [] => 0
  | prev :: earlier =>
    if specTrigger prev (specCounter (prev :: earlier)) then 0 else specCounter (prev :: earlier)

/-- Whether the flush fires at index `i` of `obs` according to the wording of
the hysteresis property. -/
def specFires (obs : List Nat) (i : Nat) : Bool :=
  specTrigger (obs.getD i 0) (specCounter (obs.take (i + 1)).reverse)

/-- The hysteresis property as worded, on a run of the loop: at every
iteration the flush fires exactly when the worded condition holds of the
worded counter, which is cleared after each flush pass. -/
def firesAsWorded (polls : List Poll) : Prop :=
  checkDetectionsContinuously IOLoop.init polls =
    (List.range polls.length).map (specFires (polls.map Poll.size))

/-- The counter of the hysteresis property with the clearing restricted to
flush passes that ran to their end, for a history given newest first: the
value carried over (0 at the start and after a flush pass that ran to its
end), plus one when the newest length equals the previous observation, minus
one when it differs and the counter is positive. -/
def amendedCounter : List Poll → Nat
  | [] => 0
  | p :: earlier =>
    let carried :=
      match earlier with
      | [] => 0
      | q :: _ =>
        if specTrigger q.size (amendedCounter earlier) && !q.passThrows then 0
        else amendedCounter earlier
    if p.size = (earlier.map Poll.size).headD 0 then carried + 1
    else if 0 < carried then carried - 1
    else carried

/-- Value of `amendedCounter` carried into the next observation. -/
def amendedCarried : List Poll → Nat
  | [] => 0
  | q :: earlier =>
    if specTrigger q.size (amendedCounter (q :: earlier)) && !q.passThrows then 0
    else amendedCounter (q :: earlier)

/-- Whether the flush fires at index `i` of `polls` according to the worded
condition on `amendedCounter`. -/
def amendedFires (polls : List Poll) (i : Nat) : Bool :=
  specTrigger ((polls.map Poll.size).getD i 0) (amendedCounter (polls.take (i + 1)).reverse)

/-- Number of immediately preceding consecutive poll-to-poll comparisons that
found the length unchanged, for a history given newest first (the first poll
is compared with the initial snapshot 0). -/
def noGrowthRun : List Nat → Nat
  | [] => 0
  | len :: earlier => if len = earlier.headD 0 then noGrowthRun earlier + 1 else 0

/-- The quiescence reading of the flush counter: a flush at a length below 30
comes after at least 5 immediately preceding unchanged comparisons. -/
def quiescedAtFlush (obs : List Nat) (i : Nat) : Prop :=
  (checkDetectionsContinuously IOLoop.init (quietPolls obs))[i]? = some true →
    obs.getD i 0 < 30 → 5 ≤ noGrowthRun (obs.take (i + 1)).reverse

/-- For each iteration, the number of poll-to-poll comparisons that found the
length unchanged since the previous flush pass that ran to its end (or since
the start). `prev` is the length observed by the iteration before and `c` the
number counted so far. -/
def unchangedSinceFlush : IOLoop → Nat → Nat → List Poll → List Nat
  | _, _, _, [] => []
  | s, prev, c, p :: rest =>
    let c1 := if p.size = prev then c + 1 else c
    c1 :: unchangedSinceFlush (s.poll p).1 p.size
      (if (s.poll p).2 && !p.passThrows then 0 else c1) rest

/-- Run in which the flush pass of the sixth iteration is cut short by an
exception. -/
def abortedSixth : List Poll :=
  [⟨1, false⟩, ⟨1, false⟩, ⟨1, false⟩, ⟨1, false⟩, ⟨1, false⟩, ⟨1, true⟩, ⟨1, false⟩]


/-! ## Definitions: the flush pass -/

/-- One `machinery->save` call of a flush pass (lines 403-408): the loop
index `i`, the length of `m_detections` when index 0 was read, the detection
copied from index 0, and what `save` returned. -/
structure SaveCall (D : Type) where
  index : Nat
  sizeAtRead : Nat
  detection : D
  ok : Bool
deriving DecidableEq

/-- Buffer left by a flush pass and the `save` calls it made, in order. -/
structure PassResult (D : Type) where
  buffer : List D
  calls : List (SaveCall D)
deriving DecidableEq

/-- The `for` loop of the flush pass (lines 401-418) from index `i` with
`remaining = currentCount - i` iterations to go. `pushes i` are the detections
the main loop appends (line 78) before iteration `i` reads index 0, and
`save i` is the result of the call made by iteration `i`. Reading index 0 of
an empty vector is out of range: `none`. On success the head is erased (line
410), on failure the buffer is left as it is. Every `save` call is taken to
return. -/
def flushLoop {D : Type} (pushes : Nat → List D) (save : Nat → Bool) :
    Nat → Nat → List D → Option (PassResult D)
  | _, 0, buf => some { buffer := buf, calls := [] }
  | i, remaining + 1, buf =>
    match buf ++ pushes i with
    | [] => none
    | d :: rest =>
      (flushLoop pushes save (i + 1) remaining (if save i then rest else d :: rest)).map
        (fun r => { r with
          calls := { index := i, sizeAtRead := (d :: rest).length, detection := d,
                     ok := save i } :: r.calls })

/-- Flush pass started on the buffer whose length was snapshotted into
`currentCount` (line 385), with the main loop pushing concurrently. -/
def flushPassWith {D : Type} (pushes : Nat → List D) (save : Nat → Bool) (buf : List D) :
    Option (PassResult D) :=
  flushLoop pushes save 0 buf.length buf

/-- Flush pass with no concurrent push. -/
def flushPass {D : Type} (save : Nat → Bool) (buf : List D) : Option (PassResult D) :=
  flushPassWith (fun _ => []) save buf

/-- Number of the calls `i, i+1, .., i+k-1` for which `save` returned success. -/
def successes (save : Nat → Bool) (i k : Nat) : Nat :=
  (List.range' i k).countP save

/-- The reading of the save-retry property under which a detection has one
`save` call per pass: whenever a call fails, its detection is the head of the
buffer the pass leaves. -/
def failedSaveKeptAtHead {D : Type} (save : Nat → Bool) (buf : List D) : Prop :=
  ∀ r, flushPass save buf = some r →
    ∀ c ∈ r.calls, c.ok = false → r.buffer.head? = some c.detection

/-- Map from string keys to string values with unique keys (`StringMap`). -/
abbrev StringMap := AList (fun _ : String => String)

/-- Identity of a heap object (`new` / factory `create`). -/
abbrev Handle := Nat

/-- Calls made on the collaborators and on the two worker threads by the
configuration pipeline, in the order they are made. -/
inductive Event
  | setVerboseLevel (level : Nat)
  | streamThreadStop
  | streamRelease (stream : Handle)
  | machineryDisableCapture (machinery : Handle)
  | cloudStopLivestreamThread (cloud : Handle)
  | cloudDisableCapture (cloud : Handle)
  | captureStopGrabThread (capture : Handle)
  | captureStopHealthThread (capture : Handle)
  | captureClose (capture : Handle)
  | captureRelease (capture : Handle)
  | captureCreate (capture : Handle) (name : String)
  | captureSetup (capture : Handle)
  | captureStartGrabThread (capture : Handle)
  | captureStartHealthThread (capture : Handle)
  | streamCreate (stream : Handle)
  | streamConfigure (stream : Handle)
  | streamOpen (stream : Handle)
  | streamThreadStart
  | cloudStopUploadThread (cloud : Handle)
  | cloudStopPollThread (cloud : Handle)
  | cloudStopHealthThread (cloud : Handle)
  | cloudRelease (cloud : Handle)
  | cloudCreate (cloud : Handle) (name : String)
  | cloudSetCapture (cloud : Handle) (capture : Option Handle)
  | cloudSetup (cloud : Handle)
  | ioThreadStop
  | machineryRelease (machinery : Handle)
  | machineryCreate (machinery : Handle)
  | machinerySetCapture (machinery : Handle) (capture : Option Handle)
  | machinerySetup (machinery : Handle)
  | ioThreadStart
  | captureTakeImages (capture : Handle) (count : Nat)
  | machineryInitialize (machinery : Handle)
deriving DecidableEq

/-- Events that tear down a capture device (lines 235, 241-247). -/
def Event.isDeviceTeardown : Event → Bool
  | .machineryDisableCapture _ => true
  | .captureStopGrabThread _ => true
  | .captureStopHealthThread _ => true
  | .captureClose _ => true
  | .captureRelease _ => true
  | _ => false

/-- Events that construct or start a replacement capture device or stream
(lines 255-269). -/
def Event.isReplacement : Event → Bool
  | .captureCreate _ _ => true
  | .captureSetup _ => true
  | .captureStartGrabThread _ => true
  | .captureStartHealthThread _ => true
  | .streamCreate _ => true
  | .streamConfigure _ => true
  | .streamOpen _ => true
  | .streamThreadStart => true
  | _ => false

/-- Ways the pipeline stops early: `settings.at(key)` on an absent key throws
`std::out_of_range`; a call through a null `machinery`, `cloud` or `capture`
pointer. -/
inductive Fault
  | missingKey (key : String)
  | nullPointer
deriving DecidableEq

/-- Members of the `Kerberos` object the configuration pipeline reads and
writes, with the capture bound inside the cloud and machinery objects
(`setCapture` / `disableCapture`) and the log of calls made so far. -/
structure Kerberos where
  parameters : StringMap
  m_name : String
  stream : Option Handle
  capture : Option Handle
  cloud : Option Handle
  machinery : Option Handle
  m_streamThread_running : Bool
  m_ioThread_running : Bool
  cloudCapture : Option Handle
  machineryCapture : Option Handle
  nextHandle : Handle
  log : List Event

namespace Kerberos

/-- Object state before the first `configure`: all pointers null, no thread
running. -/
def boot (parameters : StringMap) : Kerberos :=
  { parameters := parameters, m_name := "", stream := none, capture := none, cloud := none,
    machinery := none, m_streamThread_running := false, m_ioThread_running := false,
    cloudCapture := none, machineryCapture := none, nextHandle := 0, log := [] }

/-- Record a call in the log. -/
def emit (s : Kerberos) (e : Event) : Kerberos := { s with log := s.log ++ [e] }

/-- Result of a pipeline step: the new state, or the fault with the state
reached when it was raised. -/
abbrev Step := Except (Fault × Kerberos) Kerberos

/-- State a step ended in, completed or not. -/
def Step.final : Step → Kerberos
  | .ok s => s
  | .error (_, s) => s

/-- Lookup `settings.at(key)`, which throws on an absent key. -/
def settingAt (settings : StringMap) (key : String) (s : Kerberos) :
    Except (Fault × Kerberos) String :=
  match settings.lookup key with
  | some v => .ok v
  | none => .error (.missingKey key, s)

/-- Method `stopStreamThread` (lines 357-365): clear the flag, cancel, join. -/
def stopStreamThread (s : Kerberos) : Kerberos :=
  { s with m_streamThread_running := false }.emit .streamThreadStop

/-- Method `startStreamThread` (lines 342-355). -/
def startStreamThread (s : Kerberos) : Kerberos :=
  let s1 := match s.stream with
    | some st => s.emit (.streamOpen st)
    | none => s
  { s1 with m_streamThread_running := true }.emit .streamThreadStart

/-- Method `stopIOThread` (lines 441-449): clear the flag, cancel, join. -/
def stopIOThread (s : Kerberos) : Kerberos :=
  { s with m_ioThread_running := false }.emit .ioThreadStop

/-- Method `startIOThread` (lines 432-439). -/
def startIOThread (s : Kerberos) : Kerberos :=
  { s with m_ioThread_running := true }.emit .ioThreadStart

/-- Lines 132-145 of `configure`: the settings read from the file, the
`configuration` entry, then every command-line parameter assigned over it. -/
def mergeSettings (fileSettings : StringMap) (configuration : String)
    (parameters : StringMap) : StringMap :=
  parameters.foldl (fun settings key value => settings.insert key value)
    (fileSettings.insert "configuration" configuration)

/-- Method `configureCapture` (lines 216-270). `opened` is what
`capture->isOpened()` answers when asked. The `usleep` of line 265 makes no
call and is left out. -/
def configureCapture (settings : StringMap) (opened : Bool) (s : Kerberos) : Step := do
  let s := match s.stream with
    | some st => { (s.stopStreamThread.emit (.streamRelease st)) with stream := none }
    | none => s
  let s ← match s.capture with
    | some cap => do
      let s ← if opened then
          match s.machinery with
          | none => throw (Fault.nullPointer, s)
          | some m =>
            let s := { s with machineryCapture := none }.emit (.machineryDisableCapture m)
            match s.cloud with
            | none => throw (Fault.nullPointer, s)
            | some cl =>
              let s := s.emit (.cloudStopLivestreamThread cl)
              let s := { s with cloudCapture := none }.emit (.cloudDisableCapture cl)
              let s := s.emit (.captureStopGrabThread cap)
              let s := s.emit (.captureStopHealthThread cap)
              pure (s.emit (.captureClose cap))
        else pure s
      pure { (s.emit (.captureRelease cap)) with capture := none }
    | none => pure s
  let name ← settingAt settings "capture" s
  let cap := s.nextHandle
  let s := { s with capture := some cap, nextHandle := cap + 1 }.emit (.captureCreate cap name)
  let s := s.emit (.captureSetup cap)
  let s := s.emit (.captureStartGrabThread cap)
  let s := s.emit (.captureStartHealthThread cap)
  let st := s.nextHandle
  let s := { s with stream := some st, nextHandle := st + 1 }.emit (.streamCreate st)
  let s := s.emit (.streamConfigure st)
  pure s.startStreamThread

/-- Method `configureCloud` (lines 275-296). -/
def configureCloud (settings : StringMap) (s : Kerberos) : Step := do
  let s := match s.cloud with
    | some cl =>
      let s := s.emit (.cloudStopUploadThread cl)
      let s := s.emit (.cloudStopPollThread cl)
      let s := s.emit (.cloudStopHealthThread cl)
      s.emit (.cloudRelease cl)
    | none => s
  let name ← settingAt settings "cloud" s
  let cl := s.nextHandle
  let s := { s with cloud := some cl, nextHandle := cl + 1 }.emit (.cloudCreate cl name)
  let s := { s with cloudCapture := s.capture }.emit (.cloudSetCapture cl s.capture)
  pure (s.emit (.cloudSetup cl))

/-- Lines 181-210 of `configure`: stop the IO thread when it runs, replace the
machinery, start the IO thread, take the first images. -/
def configureMachinery (s : Kerberos) : Step :=
  let s := if s.m_ioThread_running then s.stopIOThread else s
  let s := match s.machinery with
    | some m => s.emit (.machineryRelease m)
    | none => s
  let m := s.nextHandle
  let s := { s with machinery := some m, nextHandle := m + 1 }.emit (.machineryCreate m)
  let s := { s with machineryCapture := s.capture }.emit (.machinerySetCapture m s.capture)
  let s := s.emit (.machinerySetup m)
  let s := s.startIOThread
  match s.capture with
  | none => throw (Fault.nullPointer, s)
  | some cap =>
    let s := s.emit (.captureTakeImages cap 3)
    pure (s.emit (.machineryInitialize m))

/-- Method `configure` (lines 126-211). `fileSettings` is what
`getSettingsFromXML` returns for the path `configuration`. -/
def configure (fileSettings : StringMap) (configuration : String) (opened : Bool)
    (s : Kerberos) : Step := do
  let settings := mergeSettings fileSettings configuration s.parameters
  let name ← settingAt settings "name" s
  let s := { s with m_name := name }
  let logging ← settingAt settings "logging" s
  let s := s.emit (.setVerboseLevel (if logging = "false" then 1 else 2))
  let s ← configureCapture settings opened s
  let s ← configureCloud settings s
  configureMachinery s

end Kerberos

/-- Teardown calls of `configureCapture` on an active stream and an open
device, in source order (lines 224-247). -/
def captureTeardown (st cap cl m : Handle) : List Event :=
  [.streamThreadStop, .streamRelease st, .machineryDisableCapture m,
   .cloudStopLivestreamThread cl, .cloudDisableCapture cl, .captureStopGrabThread cap,
   .captureStopHealthThread cap, .captureClose cap, .captureRelease cap]

/-- Calls of one `configure` pass started with stream `st`, capture `cap`,
cloud `cl`, machinery `m` and the IO thread running; `next` is the first unused
handle and `opened` the answer of `isOpened`. -/
def reconfigureLog (opened : Bool) (st cap cl m next : Handle)
    (logging capName cloudName : String) : List Event :=
  [.setVerboseLevel (if logging = "false" then 1 else 2), .streamThreadStop,
    .streamRelease st] ++
  (if opened then
    [.machineryDisableCapture m, .cloudStopLivestreamThread cl, .cloudDisableCapture cl,
      .captureStopGrabThread cap, .captureStopHealthThread cap, .captureClose cap]
   else []) ++
  [.captureRelease cap, .captureCreate next capName, .captureSetup next,
    .captureStartGrabThread next, .captureStartHealthThread next,
    .streamCreate (next + 1), .streamConfigure (next + 1), .streamOpen (next + 1),
    .streamThreadStart,
    .cloudStopUploadThread cl, .cloudStopPollThread cl, .cloudStopHealthThread cl,
    .cloudRelease cl, .cloudCreate (next + 2) cloudName,
    .cloudSetCapture (next + 2) (some next), .cloudSetup (next + 2),
    .ioThreadStop, .machineryRelease m, .machineryCreate (next + 3),
    .machinerySetCapture (next + 3) (some next), .machinerySetup (next + 3),
    .ioThreadStart, .captureTakeImages next 3, .machineryInitialize (next + 3)]

/-- Settings file used in the concrete runs. -/
def sampleFile : StringMap :=
  ((((∅ : StringMap).insert "name" "cam").insert "logging" "false").insert "capture"
    "USBCamera").insert "cloud" "S3"

/-- State after the first `configure` of a freshly booted agent. -/
def sampleActive : Kerberos :=
  (Kerberos.configure sampleFile "/etc/config.xml" true (Kerberos.boot ∅)).final

/-- State after a second `configure` with the device reporting open. -/
def sampleReconfigured : Kerberos :=
  (Kerberos.configure sampleFile "/etc/config.xml" true { sampleActive with log := [] }).final

/-- The reading under which both worker threads are stopped before the device
is torn down: the IO thread stop and the stream thread stop each come before
the first device teardown call of the log. -/
def threadsStoppedBeforeDeviceTeardown (log : List Event) : Prop :=
  log.indexOf Event.ioThreadStop < log.findIdx Event.isDeviceTeardown ∧
  log.indexOf Event.streamThreadStop < log.findIdx Event.isDeviceTeardown

/-- The reading under which every stop operation of the sessions held in `s1`
is invoked exactly once by the run that produced `log`. -/
def stopsInvokedOnce (s1 : Kerberos) (log : List Event) : Prop :=
  log.count Event.streamThreadStop = 1 ∧ log.count Event.ioThreadStop = 1 ∧
  (∀ cap, s1.capture = some cap →
    log.count (Event.captureStopGrabThread cap) = 1 ∧
    log.count (Event.captureStopHealthThread cap) = 1 ∧
    log.count (Event.captureClose cap) = 1) ∧
  (∀ cl, s1.cloud = some cl →
    log.count (Event.cloudStopUploadThread cl) = 1 ∧
    log.count (Event.cloudStopPollThread cl) = 1 ∧
    log.count (Event.cloudStopHealthThread cl) = 1)

/-! ## Definitions: metadata serialization -/

/-- Values `toJSON` stores in the document. -/
inductive JSONValue
  | str (s : String)
  | int (n : Int)
deriving DecidableEq

/-- A rapidjson object: its members in insertion order (`AddMember` appends). -/
abbrev JSON := List (String × JSONValue)

/-- Modelled from the spec: `helper::to_string` is not part of the sources; it
is the decimal rendering of its argument. -/
def to_string (i : Int) : String := toString i

/-- Method `Kerberos::toJSON` (lines 99-124) as the document it leaves in
`data` and serializes: `timestamp` and `micro` are what `getTimestamp()` and
`getMicroseconds()` return, `rand` what `rand()` returns. `micro.length` is
the number of characters, which for the ASCII digits of a microsecond string
is the byte count `std::string::length` gives. -/
def Kerberos.toJSON (self : Kerberos) (timestamp micro : String) (rand : Nat)
    (data : JSON) : JSON :=
  let data := data ++ [("name", JSONValue.str self.m_name)]
  let data := data ++ [("timestamp", JSONValue.str timestamp)]
  let micro := to_string (toInt32 micro.length) ++ "-" ++ micro
  let data := data ++ [("microseconds", JSONValue.str micro)]
  data ++ [("token", JSONValue.int ((rand : Int) % 1000))]

/-- The part of a string before its first `-` and the part after it. -/
def splitAtDash (s : String) : String × String :=
  (String.mk (s.data.takeWhile (fun c => c != '-')),
   String.mk ((s.data.dropWhile (fun c => c != '-')).drop 1))

/-- Value of a non-empty string of decimal digits. -/
def numericValue (s : String) : Option Nat :=
  if s.data ≠ [] ∧ s.data.all Char.isDigit then
    some (s.data.foldl (fun acc c => 10 * acc + (c.toNat - 48)) 0)
  else none

/-! ## Theorems: the IO thread's flush policy -/

theorem toInt32_small (n : Nat) (h : n < 2 ^ 31) : toInt32 n = (n : Int) := by
  have h1 : n % 2 ^ 32 = n := Nat.mod_eq_of_lt (by omega)
  unfold toInt32
  rw [h1, if_pos h]

theorem wrapInt32_small (i : Int) (h1 : -2147483648 ≤ i) (h2 : i < 2147483648) :
    wrapInt32 i = i := by
  unfold wrapInt32
  omega

theorem specCounter_cons (len : Nat) (earlier : List Nat) :
    specCounter (len :: earlier) =
      if len = earlier.headD 0 then specCarried earlier + 1
      else if 0 < specCarried earlier then specCarried earlier - 1
      else specCarried earlier := by
  cases earlier <;> rfl

theorem amendedCounter_cons (p : Poll) (earlier : List Poll) :
    amendedCounter (p :: earlier) =
      if p.size = (earlier.map Poll.size).headD 0 then amendedCarried earlier + 1
      else if 0 < amendedCarried earlier then amendedCarried earlier - 1
      else amendedCarried earlier := by
  cases earlier <;> rfl

theorem amendedCarried_le (hist : List Poll) : amendedCarried hist ≤ amendedCounter hist := by
  cases hist with
  | nil => simp [amendedCarried, amendedCounter]
  | cons q e =>
    simp only [amendedCarried]
    split_ifs <;> omega

theorem amendedCounter_le_length (hist : List Poll) : amendedCounter hist ≤ hist.length := by
  induction hist with
  | nil => simp [amendedCounter]
  | cons p e ih =>
    have h := amendedCarried_le e
    rw [amendedCounter_cons, List.length_cons]
    split_ifs <;> omega

theorem amended_eq_spec (hist : List Poll) (h : ∀ p ∈ hist, p.passThrows = false) :
    amendedCounter hist = specCounter (hist.map Poll.size) ∧
    amendedCarried hist = specCarried (hist.map Poll.size) := by
  induction hist with
  | nil => exact ⟨rfl, rfl⟩
  | cons p e ih =>
    obtain ⟨_, h2⟩ := ih (fun q hq => h q (List.mem_cons_of_mem _ hq))
    have hc : amendedCounter (p :: e) = specCounter ((p :: e).map Poll.size) := by
      rw [List.map_cons, amendedCounter_cons, specCounter_cons, h2]
    refine ⟨hc, ?_⟩
    rw [amendedCarried, hc, h p (List.mem_cons_self _ _)]
    simp [specCarried]

theorem after_append (s : IOLoop) (pre : List Poll) (x : Poll) :
    s.after (pre ++ [x]) = ((s.after pre).poll x).1 := by
  simp [IOLoop.after, List.foldl_append]

theorem after_cons (s : IOLoop) (x : Poll) (rest : List Poll) :
    s.after (x :: rest) = ((s.poll x).1).after rest := rfl

theorem check_getElem? (s : IOLoop) (polls : List Poll) (i : Nat) :
    (checkDetectionsContinuously s polls)[i]? =
      (polls[i]?).map (fun p => ((s.after (polls.take i)).poll p).2) := by
  induction polls generalizing s i with
  | nil => simp [checkDetectionsContinuously]
  | cons x rest ih =>
    cases i with
    | zero => simp [checkDetectionsContinuously, IOLoop.after]
    | succ j => simp [checkDetectionsContinuously, ih, after_cons]

theorem poll_snd (s : IOLoop) (p : Poll) : (s.poll p).2 = (s.observe p.size).flushDue := by
  unfold IOLoop.poll
  cases h : (s.observe p.size).flushDue <;> simp [h]

theorem poll_currentCount (s : IOLoop) (p : Poll) :
    (s.poll p).1.currentCount = toInt32 p.size := by
  unfold IOLoop.poll
  cases h : (s.observe p.size).flushDue <;> cases p.passThrows <;> simp only [h] <;>
    simp [IOLoop.observe]

theorem poll_timesEqual (s : IOLoop) (p : Poll) :
    (s.poll p).1.timesEqual =
      if ((s.observe p.size).flushDue && !p.passThrows) = true then 0
      else (s.observe p.size).timesEqual := by
  unfold IOLoop.poll
  cases h : (s.observe p.size).flushDue <;> cases p.passThrows <;> simp [h]

theorem flushDue_eq (s : IOLoop) (len c : Nat) (h1 : s.currentCount = ((len : Nat) : Int))
    (h2 : s.timesEqual = ((c : Nat) : Int)) : s.flushDue = specTrigger len c := by
  unfold IOLoop.flushDue specTrigger
  rw [h1, h2, Bool.eq_iff_iff]
  simp only [Bool.or_eq_true, Bool.and_eq_true, decide_eq_true_eq]
  omega

theorem observe_spec (s : IOLoop) (hist : List Poll) (p : Poll)
    (hc : s.currentCount = (((hist.map Poll.size).headD 0 : Nat) : Int))
    (ht : s.timesEqual = ((amendedCarried hist : Nat) : Int))
    (hb : amendedCarried hist + 1 < 2147483648) (hp : p.size < 2 ^ 31) :
    (s.observe p.size).currentCount = ((p.size : Nat) : Int) ∧
    (s.observe p.size).timesEqual = ((amendedCounter (p :: hist) : Nat) : Int) := by
  rw [amendedCounter_cons]
  simp only [IOLoop.observe, hc, ht, toInt32_small _ hp]
  have hw : wrapInt32 (((amendedCarried hist : Nat) : Int) + 1) =
      ((amendedCarried hist : Nat) : Int) + 1 := wrapInt32_small _ (by omega) (by omega)
  rw [hw]
  refine ⟨trivial, ?_⟩
  split_ifs <;> omega

theorem poll_spec (s : IOLoop) (hist : List Poll) (p : Poll)
    (hc : s.currentCount = (((hist.map Poll.size).headD 0 : Nat) : Int))
    (ht : s.timesEqual = ((amendedCarried hist : Nat) : Int))
    (hb : amendedCarried hist + 1 < 2147483648) (hp : p.size < 2 ^ 31) :
    (s.poll p).2 = specTrigger p.size (amendedCounter (p :: hist)) ∧
    (s.poll p).1.currentCount = ((p.size : Nat) : Int) ∧
    (s.poll p).1.timesEqual = ((amendedCarried (p :: hist) : Nat) : Int) := by
  obtain ⟨ho1, ho2⟩ := observe_spec s hist p hc ht hb hp
  have hf : (s.observe p.size).flushDue = specTrigger p.size (amendedCounter (p :: hist)) :=
    flushDue_eq _ _ _ ho1 ho2
  refine ⟨by rw [poll_snd, hf], by rw [poll_currentCount, toInt32_small _ hp], ?_⟩
  rw [poll_timesEqual, hf, ho2, amendedCarried]
  split_ifs <;> simp

/-- The locals reached from `init` agree with the amended counter. -/
theorem after_init_spec (pre : List Poll) (hlen : pre.length < 2147483648)
    (hsize : ∀ p ∈ pre, p.size < 2 ^ 31) :
    (IOLoop.init.after pre).currentCount =
      ((((pre.reverse).map Poll.size).headD 0 : Nat) : Int) ∧
    (IOLoop.init.after pre).timesEqual = ((amendedCarried pre.reverse : Nat) : Int) := by
  induction pre using List.reverseRecOn with
  | nil => simp [IOLoop.after, IOLoop.init, amendedCarried]
  | append_singleton pre x ih =>
    rw [List.length_append, List.length_singleton] at hlen
    obtain ⟨hc, ht⟩ := ih (by omega) (fun p hp => hsize p (List.mem_append_left _ hp))
    rw [after_append]
    have hb : amendedCarried pre.reverse + 1 < 2147483648 := by
      have h1 := amendedCarried_le pre.reverse
      have h2 := amendedCounter_le_length pre.reverse
      rw [List.length_reverse] at h2
      omega
    have h := poll_spec (IOLoop.init.after pre) pre.reverse x hc ht hb
      (hsize x (List.mem_append_right _ (List.mem_singleton_self x)))
    simp only [List.reverse_append, List.reverse_singleton, List.singleton_append,
      List.map_cons, List.headD_cons]
    exact ⟨h.2.1, h.2.2⟩

theorem check_init_eq_amended (polls : List Poll) (hlen : polls.length < 2147483648)
    (hsize : ∀ p ∈ polls, p.size < 2 ^ 31) :
    checkDetectionsContinuously IOLoop.init polls =
      (List.range polls.length).map (amendedFires polls) := by
  apply List.ext_getElem?
  intro i
  rw [check_getElem?]
  by_cases hi : i < polls.length
  · have h1 : polls[i]? = some polls[i] := List.getElem?_eq_getElem hi
    have h2 : polls.take (i + 1) = polls.take i ++ [polls[i]] := by
      rw [List.take_succ, h1]; rfl
    have hpre : (polls.take i).length < 2147483648 := by
      rw [List.length_take]; omega
    obtain ⟨hc, ht⟩ := after_init_spec (polls.take i) hpre
      (fun p hp => hsize p (List.mem_of_mem_take hp))
    have hb : amendedCarried (polls.take i).reverse + 1 < 2147483648 := by
      have h3 := amendedCarried_le (polls.take i).reverse
      have h4 := amendedCounter_le_length (polls.take i).reverse
      rw [List.length_reverse, List.length_take] at h4
      omega
    have hp := poll_spec (IOLoop.init.after (polls.take i)) (polls.take i).reverse polls[i]
      hc ht hb (hsize _ (List.getElem_mem _))
    simp only [h1, Option.map_some', List.getElem?_map, List.getElem?_range hi, amendedFires,
      List.getD_eq_getElem?_getD, Option.getD_some, h2, List.reverse_append,
      List.reverse_singleton, List.singleton_append]
    rw [hp.1]
  · have h1 : polls[i]? = none := List.getElem?_eq_none (by omega)
    have h2 : (List.range polls.length)[i]? = none :=
      List.getElem?_eq_none (by simp only [List.length_range]; omega)
    simp [h1, h2]

theorem amendedFires_eq_spec (polls : List Poll) (h : ∀ p ∈ polls, p.passThrows = false)
    (i : Nat) : amendedFires polls i = specFires (polls.map Poll.size) i := by
  unfold amendedFires specFires
  rw [(amended_eq_spec (polls.take (i + 1)).reverse
    (fun p hp => h p (List.mem_of_mem_take (List.mem_reverse.1 hp)))).1,
    List.map_reverse, List.map_take]

theorem poll_ge_thirty (s : IOLoop) (size : Nat) (throws : Bool) (h30 : 30 ≤ size)
    (hsize : size < 2 ^ 31) : (s.poll ⟨size, throws⟩).2 = true := by
  rw [poll_snd]
  simp only [IOLoop.flushDue, IOLoop.observe, Bool.or_eq_true, Bool.and_eq_true,
    decide_eq_true_eq, toInt32_small _ hsize]
  right
  omega

theorem fired_small_unchanged (s : IOLoop) (prev c : Nat) (polls : List Poll) (i : Nat)
    (hcc : s.currentCount = ((prev : Nat) : Int))
    (h0 : 0 ≤ s.timesEqual) (hc : s.timesEqual ≤ (c : Int))
    (hb : c + polls.length < 2147483648)
    (hsize : ∀ p ∈ polls, p.size < 2 ^ 31)
    (hf : (checkDetectionsContinuously s polls)[i]? = some true)
    (hlen : (polls.map Poll.size).getD i 0 < 30) :
    0 < (polls.map Poll.size).getD i 0 ∧
      5 ≤ (unchangedSinceFlush s prev c polls).getD i 0 := by
  induction polls generalizing s prev c i with
  | nil => simp [checkDetectionsContinuously] at hf
  | cons x rest ih =>
    have hx : x.size < 2 ^ 31 := hsize x (List.mem_cons_self _ _)
    rw [List.length_cons] at hb
    have hw : wrapInt32 (s.timesEqual + 1) = s.timesEqual + 1 :=
      wrapInt32_small _ (by omega) (by omega)
    cases i with
    | zero =>
      simp only [checkDetectionsContinuously, List.getElem?_cons_zero, Option.some.injEq,
        poll_snd, IOLoop.flushDue, IOLoop.observe, Bool.or_eq_true, Bool.and_eq_true,
        decide_eq_true_eq, toInt32_small _ hx, hcc, hw] at hf
      simp only [List.map_cons, List.getD_cons_zero] at hlen
      simp only [List.map_cons, List.getD_cons_zero, unchangedSinceFlush]
      split_ifs at hf ⊢ <;> omega
    | succ j =>
      simp only [checkDetectionsContinuously, List.getElem?_cons_succ] at hf
      simp only [List.map_cons, List.getD_cons_succ] at hlen
      simp only [List.map_cons, List.getD_cons_succ, unchangedSinceFlush]
      refine ih (s.poll x).1 x.size _ j ?_ ?_ ?_ ?_
        (fun p hp => hsize p (List.mem_cons_of_mem _ hp)) hf hlen
      · rw [poll_currentCount, toInt32_small _ hx]
      · rw [poll_timesEqual]
        simp only [IOLoop.observe, hcc, toInt32_small _ hx, hw]
        split_ifs <;> omega
      · rw [poll_timesEqual, poll_snd]
        simp only [IOLoop.observe, hcc, toInt32_small _ hx, hw]
        split_ifs <;> push_cast <;> omega
      · split_ifs <;> omega

/-- Claim C1, counterexample. On seven polls that all observe length 1, with
the flush pass of the sixth cut short by a `cv::Exception`, the loop flushes at
the sixth and again at the seventh poll: the handler of lines 425-428 skips
line 420, so the counter is still 5 after the sixth poll. The property as
worded clears the counter after the pass of the sixth poll and has no flush at
the seventh. -/
theorem firesAsWorded_fails : ¬ firesAsWorded abortedSixth := by
  unfold firesAsWorded
  decide

/-- Claim C1, amended. For every run of fewer than 2^31 iterations of the
IO-flush loop from its initial locals (0, 0, 0) on buffer lengths below 2^31,
the flush fires at an iteration exactly when `(len > 0 and counter > 4) or
len >= 30`, where the counter is: plus one when the length equals the previous
observation, minus one when it differs and the counter is positive, zero after
a flush pass that ran to its end, unchanged after a flush pass cut short by an
exception. When no pass is cut short this is the counter of the property as
worded. From any locals whatever, a length of at least 30 and below 2^31
flushes. The lengths `[1,1,1,1,1,1]` flush for the first time at the sixth
observation. -/
theorem ioFlush_fires_iff (polls : List Poll) (hlen : polls.length < 2 ^ 31)
    (hsize : ∀ p ∈ polls, p.size < 2 ^ 31) :
    checkDetectionsContinuously IOLoop.init polls =
      (List.range polls.length).map (amendedFires polls) ∧
    ((∀ p ∈ polls, p.passThrows = false) → firesAsWorded polls) ∧
    (∀ (s : IOLoop) (size : Nat) (throws : Bool), 30 ≤ size → size < 2 ^ 31 →
      (s.poll { size := size, passThrows := throws }).2 = true) ∧
    checkDetectionsContinuously IOLoop.init (quietPolls [1, 1, 1, 1, 1, 1]) =
      [false, false, false, false, false, true] := by
  have hmain := check_init_eq_amended polls (by omega) hsize
  refine ⟨hmain, ?_, poll_ge_thirty, by decide⟩
  intro hquiet
  unfold firesAsWorded
  rw [hmain]
  apply List.map_congr_left
  intro i _
  exact amendedFires_eq_spec polls hquiet i

/-- Instance of `ioFlush_fires_iff` on the run whose sixth flush pass is cut
short. -/
theorem ioFlush_fires_iff_witness :
    checkDetectionsContinuously IOLoop.init abortedSixth =
      (List.range abortedSixth.length).map (amendedFires abortedSixth) ∧
    ((∀ p ∈ abortedSixth, p.passThrows = false) → firesAsWorded abortedSixth) ∧
    (∀ (s : IOLoop) (size : Nat) (throws : Bool), 30 ≤ size → size < 2 ^ 31 →
      (s.poll { size := size, passThrows := throws }).2 = true) ∧
    checkDetectionsContinuously IOLoop.init (quietPolls [1, 1, 1, 1, 1, 1]) =
      [false, false, false, false, false, true] :=
  ioFlush_fires_iff abortedSixth (by decide) (by decide)

/-- Claim C5, counterexample. On the lengths `[1,1,1,1,1,2,2,2]`, no flush pass
cut short, the flush fires at the eighth observation with length 2, below 30,
although only the last 2 poll-to-poll comparisons found the length unchanged:
the comparison of the sixth observation with the fifth found a change, which
took one off the counter instead of clearing it. -/
theorem quiescedAtFlush_fails : ¬ quiescedAtFlush [1, 1, 1, 1, 1, 2, 2, 2] 7 := by
  unfold quiescedAtFlush
  decide

/-- Claim C5, amended. In every run of fewer than 2^31 iterations of the
IO-flush loop from its initial locals on buffer lengths below 2^31, whenever
the flush fires at an observation whose length is below 30, that length is
positive and at least 5 of the poll-to-poll comparisons made since the
previous flush pass that ran to its end (or since the start) found the length
unchanged; they need not be consecutive nor the immediately preceding ones. -/
theorem flush_below_thirty_unchanged (polls : List Poll) (i : Nat)
    (hruns : polls.length < 2 ^ 31) (hsize : ∀ p ∈ polls, p.size < 2 ^ 31)
    (hf : (checkDetectionsContinuously IOLoop.init polls)[i]? = some true)
    (hlen : (polls.map Poll.size).getD i 0 < 30) :
    0 < (polls.map Poll.size).getD i 0 ∧
      5 ≤ (unchangedSinceFlush IOLoop.init 0 0 polls).getD i 0 :=
  fired_small_unchanged IOLoop.init 0 0 polls i (by simp [IOLoop.init])
    (by simp [IOLoop.init]) (by simp [IOLoop.init]) (by omega) hsize hf hlen

/-- Instance of `flush_below_thirty_unchanged` at the seventh poll of the run
whose sixth flush pass is cut short: the flush fires again there, with six
unchanged comparisons since the start. -/
theorem flush_below_thirty_unchanged_witness :
    0 < (abortedSixth.map Poll.size).getD 6 0 ∧
      5 ≤ (unchangedSinceFlush IOLoop.init 0 0 abortedSixth).getD 6 0 :=
  flush_below_thirty_unchanged abortedSixth 6 (by decide) (by decide) (by decide)
    (by decide)

/-! ## Theorems: the flush pass -/

theorem successes_zero (save : Nat → Bool) (i : Nat) : successes save i 0 = 0 := rfl

theorem successes_succ (save : Nat → Bool) (i k : Nat) :
    successes save i (k + 1) = (if save i then 1 else 0) + successes save (i + 1) k := by
  simp only [successes, List.range'_succ, List.countP_cons]
  omega

theorem successes_le (save : Nat → Bool) (i k : Nat) : successes save i k ≤ k := by
  unfold successes
  exact (List.countP_le_length save).trans (by simp)

theorem flushLoop_noPush {D : Type} (save : Nat → Bool) (i k : Nat) (buf : List D)
    (hk : k ≤ buf.length) :
    ∃ r, flushLoop (fun _ => []) save i k buf = some r ∧
      r.buffer = buf.drop (successes save i k) ∧
      r.calls.length = k ∧
      ∀ j, j < k → ∃ c, r.calls[j]? = some c ∧ c.index = i + j ∧ c.ok = save (i + j) ∧
        buf[successes save i j]? = some c.detection ∧
        c.sizeAtRead = buf.length - successes save i j := by
  induction k generalizing i buf with
  | zero => exact ⟨_, rfl, by simp [successes_zero], rfl, by intro j hj; omega⟩
  | succ k ih =>
    cases buf with
    | nil => simp at hk
    | cons d rest =>
      have hk1 : k ≤ rest.length := by simpa using hk
      cases hs : save i with
      | true =>
        obtain ⟨r, hr, hb, hl, hc⟩ := ih (i + 1) rest hk1
        refine ⟨⟨r.buffer, ⟨i, rest.length + 1, d, true⟩ :: r.calls⟩,
          by simp [flushLoop, hs, hr], ?_, by simp [hl], ?_⟩
        · simp [successes_succ, hs, hb, Nat.add_comm 1]
        · intro j hj
          cases j with
          | zero =>
            exact ⟨⟨i, rest.length + 1, d, true⟩, by simp, rfl, by simp [hs],
              by simp [successes_zero], by simp [successes_zero]⟩
          | succ j =>
            obtain ⟨c, h1, h2, h3, h4, h5⟩ := hc j (by omega)
            refine ⟨c, by simpa using h1, by omega, by rw [h3]; congr 1; omega, ?_, ?_⟩
            · simpa [successes_succ, hs, Nat.add_comm 1] using h4
            · simp only [successes_succ, hs, if_true, List.length_cons]; omega
      | false =>
        obtain ⟨r, hr, hb, hl, hc⟩ := ih (i + 1) (d :: rest) (by simp; omega)
        refine ⟨⟨r.buffer, ⟨i, rest.length + 1, d, false⟩ :: r.calls⟩,
          by simp [flushLoop, hs, hr], ?_, by simp [hl], ?_⟩
        · simp [successes_succ, hs, hb]
        · intro j hj
          cases j with
          | zero =>
            exact ⟨⟨i, rest.length + 1, d, false⟩, by simp, rfl, by simp [hs],
              by simp [successes_zero], by simp [successes_zero]⟩
          | succ j =>
            obtain ⟨c, h1, h2, h3, h4, h5⟩ := hc j (by omega)
            refine ⟨c, by simpa using h1, by omega, by rw [h3]; congr 1; omega, ?_, ?_⟩
            · simpa [successes_succ, hs] using h4
            · simpa [successes_succ, hs] using h5

theorem successes_append (save : Nat → Bool) (i j k : Nat) :
    successes save i (j + k) = successes save i j + successes save (i + j) k := by
  unfold successes
  rw [← List.countP_append, List.range'_append_1, Nat.add_comm k j]

theorem successes_eq_zero (save : Nat → Bool) (i k : Nat)
    (h : ∀ j, i ≤ j → j < i + k → save j = false) : successes save i k = 0 := by
  unfold successes
  rw [List.countP_eq_zero]
  intro a ha
  rw [List.mem_range'_1] at ha
  simp [h a ha.1 ha.2]

theorem flushLoop_total {D : Type} (pushes : Nat → List D) (save : Nat → Bool) (i k : Nat)
    (buf : List D) (hk : k ≤ buf.length) :
    ∃ r, flushLoop pushes save i k buf = some r ∧
      r.calls.map SaveCall.index = List.range' i k ∧
      ∀ c ∈ r.calls, c.index < i + k ∧ i + k - c.index ≤ c.sizeAtRead := by
  induction k generalizing i buf with
  | zero => exact ⟨_, rfl, rfl, by simp⟩
  | succ k ih =>
    cases hb : buf ++ pushes i with
    | nil =>
      have : (buf ++ pushes i).length = 0 := by rw [hb]; rfl
      simp only [List.length_append] at this
      omega
    | cons d rest =>
      have hlen : buf.length + (pushes i).length = rest.length + 1 := by
        rw [← List.length_append, hb]; rfl
      have hrest : k ≤ (if save i then rest else d :: rest).length := by
        split_ifs
        · omega
        · simp only [List.length_cons]; omega
      obtain ⟨r, hr, hidx, hc⟩ := ih (i + 1) (if save i then rest else d :: rest) hrest
      refine ⟨⟨r.buffer, ⟨i, (d :: rest).length, d, save i⟩ :: r.calls⟩, ?_, ?_, ?_⟩
      · simp [flushLoop, hb, hr]
      · simp [hidx, List.range'_succ]
      · intro c hmem
        rcases List.mem_cons.1 hmem with h | h
        · subst h
          simp only [List.length_cons]
          omega
        · have := hc c h
          omega

theorem flushLoop_noPush_saved {D : Type} (save : Nat → Bool) (i k : Nat) (buf : List D)
    (hk : k ≤ buf.length) (r : PassResult D)
    (hr : flushLoop (fun _ => []) save i k buf = some r) :
    (r.calls.filter SaveCall.ok).map SaveCall.detection = buf.take (successes save i k) ∧
      (r.calls.filter SaveCall.ok).length = successes save i k := by
  induction k generalizing i buf r with
  | zero =>
    simp only [flushLoop, Option.some.injEq] at hr
    subst hr
    simp [successes_zero]
  | succ k ih =>
    cases buf with
    | nil => simp at hk
    | cons d rest =>
      have hk1 : k ≤ rest.length := by simpa using hk
      simp only [flushLoop, List.append_nil, Option.map_eq_some'] at hr
      obtain ⟨r1, hr1, rfl⟩ := hr
      cases hs : save i with
      | true =>
        rw [hs] at hr1
        obtain ⟨h1, h2⟩ := ih (i + 1) rest hk1 r1 hr1
        simp [successes_succ, hs, h1, h2, Nat.add_comm 1]
      | false =>
        rw [hs] at hr1
        obtain ⟨h1, h2⟩ := ih (i + 1) (d :: rest) (by simp; omega) r1 hr1
        simp [successes_succ, hs, h1, h2]

/-- Claim C2, counterexample. On the buffer `[10, 20]` with the first `save`
call failing and the second succeeding, both calls are made on detection 10:
its first call fails, and after the pass it is not in the buffer, which is
`[20]`. -/
theorem failedSaveKeptAtHead_fails :
    ¬ failedSaveKeptAtHead (fun i => decide (i ≠ 0)) [10, 20] := by
  intro h
  have h1 := h ⟨[20], [⟨0, 2, 10, false⟩, ⟨1, 2, 10, true⟩]⟩ (by decide) ⟨0, 2, 10, false⟩
    (by decide) rfl
  exact absurd h1 (by decide)

/-- Claim C2, amended. For every buffer at the start of a flush pass and every
sequence of `save` outcomes (no concurrent push), the pass returns and leaves
the original buffer without its first k elements, k being the number of
`save` calls that returned success; the successful calls were made, in order,
on exactly those k detections; a detection whose `save` call fails is still in
the buffer, at the head, after the pass when no later call of the pass
succeeds; and if `save` fails on every call the buffer is unchanged. -/
theorem flushPass_drops_saved_head {D : Type} (save : Nat → Bool) (buf : List D) :
    ∃ r, flushPass save buf = some r ∧
      r.buffer = buf.drop (r.calls.filter SaveCall.ok).length ∧
      (r.calls.filter SaveCall.ok).map SaveCall.detection =
        buf.take (r.calls.filter SaveCall.ok).length ∧
      (∀ j c, r.calls[j]? = some c → c.ok = false →
        (∀ m, j < m → m < buf.length → save m = false) →
        r.buffer.head? = some c.detection) ∧
      ((∀ j, j < buf.length → save j = false) → r.buffer = buf) := by
  obtain ⟨r, hr, hb, hl, hc⟩ := flushLoop_noPush save 0 buf.length buf (le_refl _)
  obtain ⟨hs, hn⟩ := flushLoop_noPush_saved save 0 buf.length buf (le_refl _) r hr
  refine ⟨r, hr, by rw [hn, hb], by rw [hn, hs], ?_, ?_⟩
  · intro j c hj hfail hlater
    have hjlt : j < buf.length := by
      rw [← hl]
      exact (List.getElem?_eq_some_iff.1 hj).1
    obtain ⟨c1, h1, _, h3, h4, _⟩ := hc j hjlt
    rw [hj, Option.some.injEq] at h1
    subst h1
    have hsplit : successes save 0 buf.length = successes save 0 j := by
      have e : buf.length = j + (buf.length - j) := by omega
      rw [e, successes_append, successes_eq_zero save (0 + j) (buf.length - j)]
      · simp
      · intro m hm1 hm2
        rcases Nat.eq_or_lt_of_le hm1 with h | h
        · rw [← h, ← h3, hfail]
        · exact hlater m (by omega) (by omega)
    rw [hb, hsplit, List.head?_drop]
    simpa using h4
  · intro hall
    rw [hb, successes_eq_zero save 0 buf.length (fun j _ h => hall j (by omega))]
    rfl

/-- Claim C10. For every buffer snapshotted into `currentCount`, every
interleaving of producer pushes at the tail and every sequence of `save`
outcomes, the flush pass never takes the out-of-range branch of the head
read: it runs its iterations 0, 1, .., currentCount - 1, and at iteration i
the buffer holds at least `currentCount - i >= 1` detections when index 0 is
read. -/
theorem flushPass_head_read_in_range {D : Type} (pushes : Nat → List D) (save : Nat → Bool)
    (buf : List D) :
    ∃ r, flushPassWith pushes save buf = some r ∧
      r.calls.map SaveCall.index = List.range buf.length ∧
      ∀ c ∈ r.calls, 1 ≤ buf.length - c.index ∧ buf.length - c.index ≤ c.sizeAtRead := by
  obtain ⟨r, hr, hidx, hc⟩ := flushLoop_total pushes save 0 buf.length buf (le_refl _)
  refine ⟨r, hr, by rw [hidx, List.range_eq_range'], ?_⟩
  intro c hmem
  have := hc c hmem
  omega

/-! ## Theorems: the configuration pipeline -/

namespace Kerberos

theorem lookup_foldl_insert (k : String) (l : List (Sigma (fun _ : String => String)))
    (hl : l.NodupKeys) (s : StringMap) :
    (l.foldl (fun r a => r.insert a.1 a.2) s).lookup k =
      match l.dlookup k with
      | some v => some v
      | none => s.lookup k := by
  induction l generalizing s with
  | nil => simp
  | cons a t ih =>
    obtain ⟨ka, va⟩ := a
    rw [List.nodupKeys_cons] at hl
    rw [List.foldl_cons, ih hl.2]
    by_cases hk : k = ka
    · subst hk
      have hnone : List.dlookup k t = none := List.dlookup_eq_none.2 hl.1
      simp [hnone, AList.lookup_insert]
    · have hd : List.dlookup k (⟨ka, va⟩ :: t) = List.dlookup k t :=
        List.dlookup_cons_ne t ⟨ka, va⟩ hk
      rw [hd, AList.lookup_insert_ne hk]

theorem lookup_mergeSettings (fileSettings : StringMap) (configuration : String)
    (parameters : StringMap) (k : String) :
    (mergeSettings fileSettings configuration parameters).lookup k =
      match parameters.lookup k with
      | some v => some v
      | none => if k = "configuration" then some configuration else fileSettings.lookup k := by
  unfold mergeSettings AList.foldl
  rw [lookup_foldl_insert k parameters.entries parameters.nodupKeys]
  have : List.dlookup k parameters.entries = parameters.lookup k := rfl
  rw [this]
  cases parameters.lookup k with
  | some v => rfl
  | none =>
    by_cases hk : k = "configuration"
    · subst hk; simp [AList.lookup_insert]
    · simp [hk, AList.lookup_insert_ne hk]

end Kerberos


/-- Claim C9. For every file-sourced settings map F, configuration path p and
command-line parameter map P, the settings `configure` hands to the rest of
the pipeline hold P's value at every key of P; at a key outside P they hold p
when the key is `configuration` and F's value otherwise; and their key set is
exactly keys(F), `configuration` and keys(P). -/
theorem configure_settings_merge (fileSettings : StringMap) (configuration : String)
    (parameters : StringMap) :
    (∀ k v, parameters.lookup k = some v →
      (Kerberos.mergeSettings fileSettings configuration parameters).lookup k = some v) ∧
    (∀ k, parameters.lookup k = none →
      (Kerberos.mergeSettings fileSettings configuration parameters).lookup k =
        if k = "configuration" then some configuration else fileSettings.lookup k) ∧
    (∀ k, k ∈ (Kerberos.mergeSettings fileSettings configuration parameters).keys ↔
      k ∈ fileSettings.keys ∨ k = "configuration" ∨ k ∈ parameters.keys) := by
  refine ⟨?_, ?_, ?_⟩
  · intro k v h
    rw [Kerberos.lookup_mergeSettings, h]
  · intro k h
    rw [Kerberos.lookup_mergeSettings, h]
  · intro k
    rw [← AList.mem_keys, ← AList.mem_keys, ← AList.mem_keys, ← AList.lookup_isSome,
      ← AList.lookup_isSome, ← AList.lookup_isSome, Kerberos.lookup_mergeSettings]
    cases hp : parameters.lookup k with
    | some v => simp
    | none =>
      by_cases hk : k = "configuration"
      · simp [hk]
      · simp [hk]


/-- Claim C3. For every settings map, when `configureCapture` runs from a
state holding a stream, a capture device that reports open, a cloud and a
machinery, the calls it logs are exactly: stop stream thread, release stream,
machinery `disableCapture`, cloud `stopLivestreamThread`, cloud
`disableCapture`, capture `stopGrabThread`, `stopHealthThread`, `close`,
release capture; followed only by calls that construct or start the
replacement (none when the `capture` setting is absent), so no such call comes
before the last teardown call. -/
theorem configureCapture_teardown_first (settings : StringMap) (s : Kerberos)
    (st cap cl m : Handle) (hst : s.stream = some st) (hcap : s.capture = some cap)
    (hcl : s.cloud = some cl) (hm : s.machinery = some m) :
    ∃ rebuild,
      (Kerberos.configureCapture settings true { s with log := [] }).final.log =
        captureTeardown st cap cl m ++ rebuild ∧
      (∀ e ∈ captureTeardown st cap cl m, e.isReplacement = false) ∧
      (∀ e ∈ rebuild, e.isReplacement = true) ∧
      (rebuild = [] ∨ ∃ name, settings.lookup "capture" = some name ∧
        rebuild = [.captureCreate s.nextHandle name, .captureSetup s.nextHandle,
          .captureStartGrabThread s.nextHandle, .captureStartHealthThread s.nextHandle,
          .streamCreate (s.nextHandle + 1), .streamConfigure (s.nextHandle + 1),
          .streamOpen (s.nextHandle + 1), .streamThreadStart]) := by
  obtain ⟨ps, nm, st0, cap0, cl0, m0, sr, ir, cc, mc, nh, lg⟩ := s
  simp only at hst hcap hcl hm
  subst hst hcap hcl hm
  cases hl : settings.lookup "capture" with
  | none =>
    refine ⟨[], ?_, ?_, ?_, Or.inl rfl⟩
    · simp [Kerberos.configureCapture, Kerberos.settingAt, hl, Kerberos.emit,
        Kerberos.stopStreamThread, Kerberos.Step.final, captureTeardown, bind, Except.bind,
        pure, Except.pure, throw, throwThe, MonadExceptOf.throw]
    · simp [captureTeardown, Event.isReplacement]
    · simp
  | some name =>
    refine ⟨_, ?_, ?_, ?_, Or.inr ⟨name, rfl, rfl⟩⟩
    · simp [Kerberos.configureCapture, Kerberos.settingAt, hl, Kerberos.emit,
        Kerberos.stopStreamThread, Kerberos.startStreamThread, Kerberos.Step.final,
        captureTeardown, bind, Except.bind, pure, Except.pure]
    · simp [captureTeardown, Event.isReplacement]
    · simp [Event.isReplacement]


/-- Instance of `configureCapture_teardown_first` on the state reached by the
first `configure` of a booted agent. -/
theorem configureCapture_teardown_first_witness :
    ∃ rebuild,
      (Kerberos.configureCapture sampleFile true { sampleActive with log := [] }).final.log =
        captureTeardown 1 0 2 3 ++ rebuild ∧
      (∀ e ∈ captureTeardown 1 0 2 3, e.isReplacement = false) ∧
      (∀ e ∈ rebuild, e.isReplacement = true) ∧
      (rebuild = [] ∨ ∃ name, sampleFile.lookup "capture" = some name ∧
        rebuild = [.captureCreate sampleActive.nextHandle name,
          .captureSetup sampleActive.nextHandle,
          .captureStartGrabThread sampleActive.nextHandle,
          .captureStartHealthThread sampleActive.nextHandle,
          .streamCreate (sampleActive.nextHandle + 1),
          .streamConfigure (sampleActive.nextHandle + 1),
          .streamOpen (sampleActive.nextHandle + 1), .streamThreadStart]) :=
  configureCapture_teardown_first sampleFile sampleActive 1 0 2 3 (by decide) (by decide)
    (by decide) (by decide)

namespace Kerberos

theorem configureCapture_ok (settings : StringMap) (opened : Bool) (s s1 : Kerberos)
    (h : configureCapture settings opened s = .ok s1) :
    s1.capture = some s.nextHandle ∧ s1.stream = some (s.nextHandle + 1) ∧
    s1.nextHandle = s.nextHandle + 2 ∧
    s1.m_streamThread_running = true ∧ s1.cloud = s.cloud ∧ s1.machinery = s.machinery ∧
    s1.m_ioThread_running = s.m_ioThread_running ∧ s1.parameters = s.parameters ∧
    s1.m_name = s.m_name ∧
    (settings.lookup "capture").isSome = true := by
  obtain ⟨ps, nm, st0, cap0, cl0, m0, sr, ir, cc, mc, nh, lg⟩ := s
  cases hl : settings.lookup "capture" <;> cases st0 <;> cases cap0 <;> cases opened <;>
    cases m0 <;> cases cl0 <;>
    simp [configureCapture, settingAt, hl, emit, stopStreamThread, startStreamThread, bind,
      Except.bind, pure, Except.pure, throw, throwThe, MonadExceptOf.throw] at h <;>
    subst h <;> simp

theorem configureCloud_ok (settings : StringMap) (s s1 : Kerberos)
    (h : configureCloud settings s = .ok s1) :
    s1.cloud = some s.nextHandle ∧ s1.cloudCapture = s.capture ∧ s1.capture = s.capture ∧
    s1.nextHandle = s.nextHandle + 1 ∧
    s1.stream = s.stream ∧ s1.machinery = s.machinery ∧
    s1.m_streamThread_running = s.m_streamThread_running ∧
    s1.m_ioThread_running = s.m_ioThread_running ∧ s1.parameters = s.parameters ∧
    s1.m_name = s.m_name ∧
    (settings.lookup "cloud").isSome = true := by
  obtain ⟨ps, nm, st0, cap0, cl0, m0, sr, ir, cc, mc, nh, lg⟩ := s
  cases hl : settings.lookup "cloud" <;> cases cl0 <;>
    simp [configureCloud, settingAt, hl, emit, bind, Except.bind, pure, Except.pure] at h <;>
    subst h <;> simp

theorem configureMachinery_ok (s s1 : Kerberos) (h : configureMachinery s = .ok s1) :
    s1.machinery = some s.nextHandle ∧ s1.machineryCapture = s.capture ∧
    s1.capture = s.capture ∧ s.capture.isSome = true ∧ s1.cloud = s.cloud ∧
    s1.cloudCapture = s.cloudCapture ∧ s1.stream = s.stream ∧
    s1.m_streamThread_running = s.m_streamThread_running ∧
    s1.m_ioThread_running = true ∧ s1.parameters = s.parameters ∧ s1.m_name = s.m_name := by
  obtain ⟨ps, nm, st0, cap0, cl0, m0, sr, ir, cc, mc, nh, lg⟩ := s
  cases cap0 <;> cases m0 <;> cases ir <;>
    simp [configureMachinery, emit, stopIOThread, startIOThread, pure, Except.pure, throw,
      throwThe, MonadExceptOf.throw] at h <;>
    subst h <;> simp

theorem configure_ok_shape (F : StringMap) (p : String) (o : Bool) (s s1 : Kerberos)
    (h : configure F p o s = .ok s1) :
    (∃ st cap cl m, s1.stream = some st ∧ s1.capture = some cap ∧ s1.cloud = some cl ∧
      s1.machinery = some m ∧ s1.cloudCapture = some cap ∧ s1.machineryCapture = some cap) ∧
    s1.m_streamThread_running = true ∧ s1.m_ioThread_running = true ∧
    s1.parameters = s.parameters ∧
    (∃ name logging capName cloudName,
      (mergeSettings F p s.parameters).lookup "name" = some name ∧
      (mergeSettings F p s.parameters).lookup "logging" = some logging ∧
      (mergeSettings F p s.parameters).lookup "capture" = some capName ∧
      (mergeSettings F p s.parameters).lookup "cloud" = some cloudName ∧
      s1.m_name = name) := by
  unfold configure at h
  cases hn : (mergeSettings F p s.parameters).lookup "name" with
  | none => simp [settingAt, hn, bind, Except.bind] at h
  | some name =>
    cases hg : (mergeSettings F p s.parameters).lookup "logging" with
    | none => simp [settingAt, hn, hg, bind, Except.bind] at h
    | some logging =>
      simp only [settingAt, hn, hg, bind, Except.bind] at h
      split at h
      · exact absurd h (by simp)
      · rename_i sa ha
        split at h
        · exact absurd h (by simp)
        · rename_i sb hb
          have h1 := configureCapture_ok _ _ _ _ ha
          have h2 := configureCloud_ok _ _ _ hb
          have h3 := configureMachinery_ok _ _ h
          simp only [emit] at h1
          obtain ⟨capName, hc⟩ := Option.isSome_iff_exists.1 h1.2.2.2.2.2.2.2.2.2
          obtain ⟨cloudName, hd⟩ := Option.isSome_iff_exists.1 h2.2.2.2.2.2.2.2.2.2.2
          refine ⟨⟨s.nextHandle + 1, s.nextHandle, sa.nextHandle, sb.nextHandle, ?_, ?_, ?_, ?_,
            ?_, ?_⟩, ?_, ?_, ?_, name, logging, capName, cloudName, rfl, rfl, hc, hd, ?_⟩
          · rw [h3.2.2.2.2.2.2.1, h2.2.2.2.2.1, h1.2.1]
          · rw [h3.2.2.1, h2.2.2.1, h1.1]
          · rw [h3.2.2.2.2.1, h2.1]
          · rw [h3.1]
          · rw [h3.2.2.2.2.2.1, h2.2.1, h1.1]
          · rw [h3.2.1, h2.2.2.1, h1.1]
          · rw [h3.2.2.2.2.2.2.2.1, h2.2.2.2.2.2.2.1, h1.2.2.2.1]
          · exact h3.2.2.2.2.2.2.2.2.1
          · rw [h3.2.2.2.2.2.2.2.2.2.1, h2.2.2.2.2.2.2.2.2.1, h1.2.2.2.2.2.2.2.1]
          · rw [h3.2.2.2.2.2.2.2.2.2.2, h2.2.2.2.2.2.2.2.2.2.1, h1.2.2.2.2.2.2.2.2.1]

theorem configure_active (F : StringMap) (p : String) (o : Bool) (s : Kerberos)
    (st cap cl m : Handle) (name logging capName cloudName : String)
    (hst : s.stream = some st) (hcap : s.capture = some cap) (hcl : s.cloud = some cl)
    (hm : s.machinery = some m) (hio : s.m_ioThread_running = true)
    (h1 : (mergeSettings F p s.parameters).lookup "name" = some name)
    (h2 : (mergeSettings F p s.parameters).lookup "logging" = some logging)
    (h3 : (mergeSettings F p s.parameters).lookup "capture" = some capName)
    (h4 : (mergeSettings F p s.parameters).lookup "cloud" = some cloudName) :
    configure F p o { s with log := [] } = .ok
      { parameters := s.parameters, m_name := name, stream := some (s.nextHandle + 1),
        capture := some s.nextHandle, cloud := some (s.nextHandle + 2),
        machinery := some (s.nextHandle + 3), m_streamThread_running := true,
        m_ioThread_running := true, cloudCapture := some s.nextHandle,
        machineryCapture := some s.nextHandle, nextHandle := s.nextHandle + 4,
        log := reconfigureLog o st cap cl m s.nextHandle logging capName cloudName } := by
  obtain ⟨ps, nm, st0, cap0, cl0, m0, sr, ir, cc, mc, nh, lg⟩ := s
  simp only at hst hcap hcl hm hio h1 h2 h3 h4
  subst hst hcap hcl hm hio
  cases o <;>
    simp [configure, configureCapture, configureCloud, configureMachinery, settingAt, h1, h2,
      h3, h4, emit, stopStreamThread, startStreamThread, stopIOThread, startIOThread, bind,
      Except.bind, pure, Except.pure, reconfigureLog]

end Kerberos


/-- Claim C4, counterexample. In the second `configure` of the sample agent
(stream, open device, cloud, machinery and IO thread all active) the IO thread
stop is logged after the device teardown calls, not before the first of
them. -/
theorem threadsStoppedBeforeDeviceTeardown_fails :
    ¬ threadsStoppedBeforeDeviceTeardown
      (Kerberos.configure sampleFile "/etc/config.xml" true
        { sampleActive with log := [] }).final.log := by
  unfold threadsStoppedBeforeDeviceTeardown
  decide


/-- Claim C7, counterexample. When the device does not report open at the
second `configure` of the sample agent, `stopGrabThread` of the capture the
first run started is invoked zero times, not once. -/
theorem stopsInvokedOnce_fails :
    ¬ stopsInvokedOnce sampleActive
      (Kerberos.configure sampleFile "/etc/config.xml" false
        { sampleActive with log := [] }).final.log := by
  intro h
  have h1 := (h.2.2.1 0 (by decide)).1
  exact absurd h1 (by decide)


/-- Claim C4, amended. In the log of every `configure` pass that starts with
an open device, a stream, a cloud, a machinery and the IO thread running, and
that completes: the stream thread stop comes before every device teardown call;
the IO thread stop comes after all five device teardown calls
(`disableCapture`, `stopGrabThread`, `stopHealthThread`, `close`, release) and
after the grab and health threads of the replacement device were started; and
the stream thread and the IO thread are each started once, after the
replacement device's grab and health threads were started. -/
theorem configure_thread_stop_order (F : StringMap) (p : String) (s s1 : Kerberos)
    (st cap cl m : Handle) (hst : s.stream = some st) (hcap : s.capture = some cap)
    (hcl : s.cloud = some cl) (hm : s.machinery = some m)
    (hio : s.m_ioThread_running = true)
    (hok : Kerberos.configure F p true { s with log := [] } = .ok s1) :
    Event.streamThreadStop ∈ s1.log ∧ Event.ioThreadStop ∈ s1.log ∧
    (s1.log.take (s1.log.indexOf Event.streamThreadStop)).filter Event.isDeviceTeardown = [] ∧
    (s1.log.take (s1.log.indexOf Event.ioThreadStop)).filter Event.isDeviceTeardown =
      [.machineryDisableCapture m, .captureStopGrabThread cap, .captureStopHealthThread cap,
        .captureClose cap, .captureRelease cap] ∧
    (s1.log.drop (s1.log.indexOf Event.ioThreadStop)).filter Event.isDeviceTeardown = [] ∧
    (∀ e ∈ [Event.captureStartGrabThread s.nextHandle,
        Event.captureStartHealthThread s.nextHandle],
      e ∈ s1.log.take (s1.log.indexOf Event.ioThreadStop) ∧
      e ∈ s1.log.take (s1.log.indexOf Event.streamThreadStart) ∧
      e ∈ s1.log.take (s1.log.indexOf Event.ioThreadStart)) ∧
    s1.capture = some s.nextHandle ∧
    s1.log.count Event.streamThreadStart = 1 ∧ s1.log.count Event.ioThreadStart = 1 := by
  obtain ⟨_, _, _, hpar, name, logging, capName, cloudName, h1, h2, h3, h4, _⟩ :=
    Kerberos.configure_ok_shape F p true _ s1 hok
  have hexp := Kerberos.configure_active F p true s st cap cl m name logging capName
    cloudName hst hcap hcl hm hio h1 h2 h3 h4
  rw [hexp, Except.ok.injEq] at hok
  subst hok
  simp [reconfigureLog, List.indexOf_cons, List.count_cons, Event.isDeviceTeardown]


/-- Instance of `configure_thread_stop_order` on the second `configure` of the
sample agent. -/
theorem configure_thread_stop_order_witness :
    Event.streamThreadStop ∈ sampleReconfigured.log ∧
    Event.ioThreadStop ∈ sampleReconfigured.log ∧
    (sampleReconfigured.log.take
      (sampleReconfigured.log.indexOf Event.streamThreadStop)).filter
        Event.isDeviceTeardown = [] ∧
    (sampleReconfigured.log.take
      (sampleReconfigured.log.indexOf Event.ioThreadStop)).filter Event.isDeviceTeardown =
      [.machineryDisableCapture 3, .captureStopGrabThread 0, .captureStopHealthThread 0,
        .captureClose 0, .captureRelease 0] ∧
    (sampleReconfigured.log.drop
      (sampleReconfigured.log.indexOf Event.ioThreadStop)).filter Event.isDeviceTeardown = [] ∧
    (∀ e ∈ [Event.captureStartGrabThread sampleActive.nextHandle,
        Event.captureStartHealthThread sampleActive.nextHandle],
      e ∈ sampleReconfigured.log.take (sampleReconfigured.log.indexOf Event.ioThreadStop) ∧
      e ∈ sampleReconfigured.log.take
        (sampleReconfigured.log.indexOf Event.streamThreadStart) ∧
      e ∈ sampleReconfigured.log.take
        (sampleReconfigured.log.indexOf Event.ioThreadStart)) ∧
    sampleReconfigured.capture = some sampleActive.nextHandle ∧
    sampleReconfigured.log.count Event.streamThreadStart = 1 ∧
    sampleReconfigured.log.count Event.ioThreadStart = 1 :=
  configure_thread_stop_order sampleFile "/etc/config.xml" sampleActive sampleReconfigured
    1 0 2 3 (by decide) (by decide) (by decide) (by decide) (by decide) rfl

theorem reconfigureLog_counts (o : Bool) (st cap cl m next : Handle)
    (logging capName cloudName : String) :
    (reconfigureLog o st cap cl m next logging capName cloudName).count
      Event.streamThreadStop = 1 ∧
    (reconfigureLog o st cap cl m next logging capName cloudName).count
      Event.ioThreadStop = 1 ∧
    (reconfigureLog o st cap cl m next logging capName cloudName).count
      (Event.cloudStopUploadThread cl) = 1 ∧
    (reconfigureLog o st cap cl m next logging capName cloudName).count
      (Event.cloudStopPollThread cl) = 1 ∧
    (reconfigureLog o st cap cl m next logging capName cloudName).count
      (Event.cloudStopHealthThread cl) = 1 ∧
    (reconfigureLog o st cap cl m next logging capName cloudName).count
      (Event.captureStopGrabThread cap) = (if o then 1 else 0) ∧
    (reconfigureLog o st cap cl m next logging capName cloudName).count
      (Event.captureStopHealthThread cap) = (if o then 1 else 0) ∧
    (reconfigureLog o st cap cl m next logging capName cloudName).count
      (Event.captureClose cap) = (if o then 1 else 0) ∧
    (reconfigureLog o st cap cl m next logging capName cloudName).count
      (Event.streamRelease st) = 1 ∧
    (reconfigureLog o st cap cl m next logging capName cloudName).count
      (Event.captureRelease cap) = 1 ∧
    (reconfigureLog o st cap cl m next logging capName cloudName).count
      (Event.cloudRelease cl) = 1 ∧
    (reconfigureLog o st cap cl m next logging capName cloudName).count
      (Event.machineryRelease m) = 1 := by
  cases o <;>
    simp only [reconfigureLog, List.count_cons, List.count_nil, List.append_eq,
      List.cons_append, List.nil_append, if_true, if_false, Bool.false_eq_true] <;>
    simp only [beq_iff_eq, reduceCtorEq, if_false, if_true, Event.cloudStopUploadThread.injEq,
      Event.cloudStopPollThread.injEq, Event.cloudStopHealthThread.injEq,
      Event.captureStopGrabThread.injEq, Event.captureStopHealthThread.injEq,
      Event.captureClose.injEq, Event.streamRelease.injEq, Event.captureRelease.injEq,
      Event.cloudRelease.injEq, Event.machineryRelease.injEq, and_self]


/-- Claim C7, amended. When `configure` is run a second time, with the same
settings, after a first `configure` that completed, the second run completes
and its log holds exactly one stream thread stop, one IO thread stop, one each
of cloud `stopUploadThread`, `stopPollThread` and `stopHealthThread` and one
release of each session of the first run; device `stopGrabThread`,
`stopHealthThread` and `close` are each invoked once when the device reports
open and not at all when it does not; and the second run ends as the first
did, with stream, capture, cloud and machinery present, cloud and machinery
bound to the current capture, and the IO thread running. -/
theorem configure_twice (F : StringMap) (p : String) (o1 o2 : Bool) (s0 s1 : Kerberos)
    (hfirst : Kerberos.configure F p o1 s0 = .ok s1) :
    ∃ s2 st1 cap1 cl1 m1,
      s1.stream = some st1 ∧ s1.capture = some cap1 ∧ s1.cloud = some cl1 ∧
      s1.machinery = some m1 ∧ s1.cloudCapture = some cap1 ∧
      s1.machineryCapture = some cap1 ∧ s1.m_ioThread_running = true ∧
      Kerberos.configure F p o2 { s1 with log := [] } = .ok s2 ∧
      s2.log.count Event.streamThreadStop = 1 ∧
      s2.log.count Event.ioThreadStop = 1 ∧
      s2.log.count (Event.cloudStopUploadThread cl1) = 1 ∧
      s2.log.count (Event.cloudStopPollThread cl1) = 1 ∧
      s2.log.count (Event.cloudStopHealthThread cl1) = 1 ∧
      s2.log.count (Event.captureStopGrabThread cap1) = (if o2 then 1 else 0) ∧
      s2.log.count (Event.captureStopHealthThread cap1) = (if o2 then 1 else 0) ∧
      s2.log.count (Event.captureClose cap1) = (if o2 then 1 else 0) ∧
      s2.log.count (Event.streamRelease st1) = 1 ∧
      s2.log.count (Event.captureRelease cap1) = 1 ∧
      s2.log.count (Event.cloudRelease cl1) = 1 ∧
      s2.log.count (Event.machineryRelease m1) = 1 ∧
      (∃ st2 cap2 cl2 m2, s2.stream = some st2 ∧ s2.capture = some cap2 ∧
        s2.cloud = some cl2 ∧ s2.machinery = some m2 ∧ s2.cloudCapture = some cap2 ∧
        s2.machineryCapture = some cap2) ∧
      s2.m_ioThread_running = true := by
  obtain ⟨⟨st1, cap1, cl1, m1, hst, hcap, hcl, hm, hcc, hmc⟩, _, hio, hpar, name, logging,
    capName, cloudName, h1, h2, h3, h4, _⟩ := Kerberos.configure_ok_shape F p o1 s0 s1 hfirst
  rw [← hpar] at h1 h2 h3 h4
  have hexp := Kerberos.configure_active F p o2 s1 st1 cap1 cl1 m1 name logging capName
    cloudName hst hcap hcl hm hio h1 h2 h3 h4
  obtain ⟨c1, c2, c3, c4, c5, c6, c7, c8, c9, c10, c11, c12⟩ :=
    reconfigureLog_counts o2 st1 cap1 cl1 m1 s1.nextHandle logging capName cloudName
  exact ⟨_, st1, cap1, cl1, m1, hst, hcap, hcl, hm, hcc, hmc, hio, hexp, c1, c2, c3, c4, c5,
    c6, c7, c8, c9, c10, c11, c12, ⟨_, _, _, _, rfl, rfl, rfl, rfl, rfl, rfl⟩, rfl⟩


/-- Instance of `configure_twice` on a booted agent whose device reports
closed at the second run. -/
theorem configure_twice_witness :
    ∃ s2 st1 cap1 cl1 m1,
      sampleActive.stream = some st1 ∧ sampleActive.capture = some cap1 ∧
      sampleActive.cloud = some cl1 ∧
      sampleActive.machinery = some m1 ∧ sampleActive.cloudCapture = some cap1 ∧
      sampleActive.machineryCapture = some cap1 ∧ sampleActive.m_ioThread_running = true ∧
      Kerberos.configure sampleFile "/etc/config.xml" false
        { sampleActive with log := [] } = .ok s2 ∧
      s2.log.count Event.streamThreadStop = 1 ∧
      s2.log.count Event.ioThreadStop = 1 ∧
      s2.log.count (Event.cloudStopUploadThread cl1) = 1 ∧
      s2.log.count (Event.cloudStopPollThread cl1) = 1 ∧
      s2.log.count (Event.cloudStopHealthThread cl1) = 1 ∧
      s2.log.count (Event.captureStopGrabThread cap1) = (if false then 1 else 0) ∧
      s2.log.count (Event.captureStopHealthThread cap1) = (if false then 1 else 0) ∧
      s2.log.count (Event.captureClose cap1) = (if false then 1 else 0) ∧
      s2.log.count (Event.streamRelease st1) = 1 ∧
      s2.log.count (Event.captureRelease cap1) = 1 ∧
      s2.log.count (Event.cloudRelease cl1) = 1 ∧
      s2.log.count (Event.machineryRelease m1) = 1 ∧
      (∃ st2 cap2 cl2 m2, s2.stream = some st2 ∧ s2.capture = some cap2 ∧
        s2.cloud = some cl2 ∧ s2.machinery = some m2 ∧ s2.cloudCapture = some cap2 ∧
        s2.machineryCapture = some cap2) ∧
      s2.m_ioThread_running = true :=
  configure_twice sampleFile "/etc/config.xml" true false (Kerberos.boot ∅) sampleActive rfl

/-! ## Theorems: metadata serialization -/

theorem digitChar_spec (k : Nat) (h : k < 10) :
    (Nat.digitChar k).isDigit = true ∧ (Nat.digitChar k).toNat - 48 = k := by
  interval_cases k <;> decide

theorem toDigitsCore_spec (fuel : Nat) :
    ∀ n ds, n < fuel → ∃ l, Nat.toDigitsCore 10 fuel n ds = l ++ ds ∧ l ≠ [] ∧
      (∀ c ∈ l, c.isDigit = true) ∧
      l.foldl (fun acc c => 10 * acc + (c.toNat - 48)) 0 = n := by
  induction fuel with
  | zero => intro n ds h; omega
  | succ fuel ih =>
    intro n ds h
    have hd := digitChar_spec (n % 10) (Nat.mod_lt _ (by decide))
    by_cases hq : n / 10 = 0
    · refine ⟨[Nat.digitChar (n % 10)], by simp [Nat.toDigitsCore, hq], by simp, ?_, ?_⟩
      · intro c hc
        rw [List.mem_singleton] at hc
        rw [hc]; exact hd.1
      · simp only [List.foldl_cons, List.foldl_nil, hd.2]
        omega
    · obtain ⟨l, h1, _, h3, h4⟩ := ih (n / 10) (Nat.digitChar (n % 10) :: ds) (by omega)
      refine ⟨l ++ [Nat.digitChar (n % 10)], by simp [Nat.toDigitsCore, hq, h1], by simp, ?_, ?_⟩
      · intro c hc
        rcases List.mem_append.1 hc with h | h
        · exact h3 c h
        · rw [List.mem_singleton] at h
          rw [h]; exact hd.1
      · rw [List.foldl_append, h4]
        simp only [List.foldl_cons, List.foldl_nil, hd.2]
        omega

theorem toString_nat_spec (n : Nat) :
    (toString n).data ≠ [] ∧ (∀ c ∈ (toString n).data, c.isDigit = true) ∧
      (toString n).data.foldl (fun acc c => 10 * acc + (c.toNat - 48)) 0 = n := by
  obtain ⟨l, h1, h2, h3, h4⟩ := toDigitsCore_spec (n + 1) n [] (by omega)
  have hdata : (toString n).data = l := by
    show (Nat.toDigits 10 n) = l
    rw [Nat.toDigits, h1, List.append_nil]
  rw [hdata]
  exact ⟨h2, h3, h4⟩

theorem isDigit_ne_dash (c : Char) (h : c.isDigit = true) : (c != '-') = true := by
  rw [bne_iff_ne]
  intro hc
  subst hc
  exact absurd h (by decide)

theorem takeWhile_append_stop {α : Type} (p : α → Bool) (l : List α) (x : α) (r : List α)
    (hl : ∀ c ∈ l, p c = true) (hx : p x = false) :
    (l ++ x :: r).takeWhile p = l ∧ (l ++ x :: r).dropWhile p = x :: r := by
  induction l with
  | nil => simp [List.takeWhile, List.dropWhile, hx]
  | cons a t ih =>
    have ha : p a = true := hl a (List.mem_cons_self _ _)
    obtain ⟨h1, h2⟩ := ih (fun c hc => hl c (List.mem_cons_of_mem _ hc))
    simp [List.takeWhile, List.dropWhile, ha, h1, h2]

/-- Claim C8. For every microsecond string m returned by the time collaborator
(shorter than 2^31 characters, so that the cast of its length to `int` keeps
its value), `toJSON` appends to the document the members `name`, with the
instance name held in `m_name`, `timestamp`, `microseconds` and `token`; the
`microseconds` member is the decimal rendering of length(m), then `-`, then m,
so splitting it at its first `-` gives a numeric prefix whose value is the
length of the string after it; and `m_name` is the value `configure` read from
the `name` setting. -/
theorem toJSON_microseconds (self : Kerberos) (timestamp micro : String) (rand : Nat)
    (data : JSON) (hlen : micro.length < 2 ^ 31) :
    self.toJSON timestamp micro rand data =
      data ++ [("name", JSONValue.str self.m_name), ("timestamp", JSONValue.str timestamp),
        ("microseconds", JSONValue.str (toString micro.length ++ "-" ++ micro)),
        ("token", JSONValue.int ((rand : Int) % 1000))] ∧
    splitAtDash (toString micro.length ++ "-" ++ micro) = (toString micro.length, micro) ∧
    numericValue (splitAtDash (toString micro.length ++ "-" ++ micro)).1 =
      some (splitAtDash (toString micro.length ++ "-" ++ micro)).2.length ∧
    (∀ F p o s0, Kerberos.configure F p o s0 = .ok self →
      (Kerberos.mergeSettings F p s0.parameters).lookup "name" = some self.m_name) := by
  obtain ⟨h1, h2, h3⟩ := toString_nat_spec micro.length
  have hsplit : splitAtDash (toString micro.length ++ "-" ++ micro) =
      (toString micro.length, micro) := by
    have hd : (toString micro.length ++ "-" ++ micro).data =
        (toString micro.length).data ++ '-' :: micro.data := by
      simp [String.data_append]
    obtain ⟨t1, t2⟩ := takeWhile_append_stop (fun c => c != '-') (toString micro.length).data
      '-' micro.data (fun c hc => isDigit_ne_dash c (h2 c hc)) (by decide)
    unfold splitAtDash
    rw [hd, t1, t2]
    rfl
  refine ⟨?_, hsplit, ?_, ?_⟩
  · simp [Kerberos.toJSON, to_string, toInt32_small _ hlen]
    rfl
  · rw [hsplit]
    unfold numericValue
    rw [if_pos ⟨h1, List.all_eq_true.2 h2⟩, h3]
  · intro F p o s0 hok
    obtain ⟨_, _, _, _, name, _, _, _, hn, _, _, _, hm⟩ :=
      Kerberos.configure_ok_shape F p o s0 self hok
    rw [hn, hm]

/-- Instance of `toJSON_microseconds` on the sample agent and the microsecond
string `123456`. -/
theorem toJSON_microseconds_witness :
    sampleActive.toJSON "2024-01-01 00:00:00" "123456" 4711 [] =
      [] ++ [("name", JSONValue.str sampleActive.m_name),
        ("timestamp", JSONValue.str "2024-01-01 00:00:00"),
        ("microseconds", JSONValue.str (toString "123456".length ++ "-" ++ "123456")),
        ("token", JSONValue.int (((4711 : Nat) : Int) % 1000))] ∧
    splitAtDash (toString "123456".length ++ "-" ++ "123456") =
      (toString "123456".length, "123456") ∧
    numericValue (splitAtDash (toString "123456".length ++ "-" ++ "123456")).1 =
      some (splitAtDash (toString "123456".length ++ "-" ++ "123456")).2.length ∧
    (∀ F p o s0, Kerberos.configure F p o s0 = .ok sampleActive →
      (Kerberos.mergeSettings F p s0.parameters).lookup "name" = some sampleActive.m_name) :=
  toJSON_microseconds sampleActive "2024-01-01 00:00:00" "123456" 4711 [] (by decide)

end kerberos
